/-
Verification of the netbox-plugin-catalog compatibility and catalog logic.

The development shallowly embeds the Python modules
`netbox_catalog/compatibility.py`, `netbox_catalog/catalog_service.py` and
`netbox_catalog/pypi_client.py`.  Pure functions become Lean functions;
the Django cache and the service's in-process caches become explicit state
passed through the operations; network fetches and dynamic imports become
`Except`/`Option`-valued oracles supplied as arguments; Python `None`
becomes `Option`, and Python truthiness of optional strings, lists and
dicts is modelled explicitly.

The version type used by the code is `packaging.version.Version` (an
external library, PEP 440).  It is modelled here by `PyVersion` together
with `pyParseVersion`, a faithful executable model of the library's
version regular expression (optional "v", epoch, dotted numeric release,
pre/post/dev segments with their separator and spelling variants, and a
local segment), including the regex's ordered-alternative backtracking,
and `pyVerCompare`, a model of the library's comparison key (release with
trailing zeros stripped, pre/post/dev sentinels, local segments).  The
Python regex's `\d` is modelled as an ASCII digit.
-/
import Mathlib

namespace NetboxCatalog

/-- Letter of a PEP 440 pre-release after normalisation
(`alpha` to `a`, `beta` to `b`, `c`/`pre`/`preview` to `rc`). -/
inductive PreTag where
  | a
  | b
  | rc
deriving DecidableEq, Repr

/-- One segment of a PEP 440 local version: numeric segments compare as
numbers, alphanumeric ones as strings. -/
inductive LocalSeg where
  | num (n : Nat)
  | str (s : String)
deriving DecidableEq, Repr

/-- Model of `packaging.version.Version`: epoch, dotted numeric release,
optional pre-release, post-release and dev-release numbers, and the local
version segments. -/
structure PyVersion where
  epoch : Nat := 0
  release : List Nat := []
  pre : Option (PreTag × Nat) := none
  post : Option Nat := none
  dev : Option Nat := none
  localSegs : Option (List LocalSeg) := none
deriving DecidableEq, Repr

/-- Separator characters the PEP 440 regex accepts between segments. -/
def isSepChar (c : Char) : Bool := c == '.' || c == '-' || c == '_'

/-- Python regex whitespace (`\s`), for the `\s*` around the version. -/
def isPySpace (c : Char) : Bool :=
  c == ' ' || c == '\t' || c == '\n' || c == '\r' || c == '\x0b' || c == '\x0c'

/-- Strip leading and trailing whitespace at the character level (model
of Python `str.strip` and of the pattern's surrounding `\s*`). -/
def stripChars (cs : List Char) : List Char :=
  ((cs.dropWhile isPySpace).reverse.dropWhile isPySpace).reverse

/-- Does the character list start with the given pattern? (model of
`str.startswith`). -/
def startsWithCL : List Char → List Char → Bool
  | _, [] => true
  | [], _ :: _ => false
  | c :: cs, p :: ps => c == p && startsWithCL cs ps

/-- Split a character list at every occurrence of a separator character
(model of `str.split(sep)` for a one-character separator). -/
def splitOnChar (sep : Char) : List Char → List (List Char)
  | [] => [[]]
  | c :: cs =>
    let r := splitOnChar sep cs
    if c == sep then [] :: r
    else
      match r with
      | h :: t => (c :: h) :: t
      | [] => [[c]]

/-- Numeric value of a list of ASCII digits (base 10, like Python `int`). -/
def digitsToNat (ds : List Char) : Nat :=
  ds.foldl (fun n c => n * 10 + (c.toNat - 48)) 0

/-- Read a maximal nonempty run of ASCII digits; `none` if the input does
not start with a digit. -/
def readNat (cs : List Char) : Option (Nat × List Char) :=
  let ds := cs.takeWhile (·.isDigit)
  if ds.isEmpty then none
  else some (digitsToNat ds, cs.dropWhile (·.isDigit))

/-- Drop the given word from the front of the input, or fail. -/
def dropLeading : List Char → List Char → Option (List Char)
  | [], cs => some cs
  | _ :: _, [] => none
  | p :: ps, c :: cs => if c = p then dropLeading ps cs else none

/-- After a pre/post/dev word: the regex fragment `[-_\.]?([0-9]+)?`, in
greedy order with backtracking into the continuation `k` (the number
defaults to 0 when absent, as in the library). -/
def afterWordNum (cs : List Char) (k : Nat → List Char → Option α) : Option α :=
  match cs with
  | c :: rest =>
    if isSepChar c then
      match readNat rest with
      | some (n, r) => k n r <|> k 0 rest <|> k 0 cs
      | none => k 0 rest <|> k 0 cs
    else
      match readNat cs with
      | some (n, r) => k n r <|> k 0 cs
      | none => k 0 cs
  | [] => k 0 []

/-- The regex fragment `[-_\.]?WORD[-_\.]?([0-9]+)?` for a fixed word, in
greedy order with backtracking into the continuation. -/
def parseWordNum (word : List Char) (cs : List Char)
    (k : Nat → List Char → Option α) : Option α :=
  let tryAt (cs1 : List Char) : Option α :=
    match dropLeading word cs1 with
    | some cs2 => afterWordNum cs2 k
    | none => none
  match cs with
  | c :: rest => if isSepChar c then tryAt rest <|> tryAt cs else tryAt cs
  | [] => none

/-- Is the character a lowercase letter or digit (PEP 440 local segment
alphabet; input is already lowercased)? -/
def isLocalChar (c : Char) : Bool := c.isDigit || ('a' ≤ c && c ≤ 'z')

/-- Classify one local segment: all-digit segments are numeric. -/
def mkLocalSeg (run : List Char) : LocalSeg :=
  if run.all (·.isDigit) then .num (digitsToNat run) else .str (String.mk run)

/-- Parse `[a-z0-9]+([-_\.][a-z0-9]+)*` to the end of the input. -/
def parseLocal : Nat → List Char → Option (List LocalSeg)
  | _, [] => none
  | 0, _ => none
  | fuel + 1, cs =>
    let run := cs.takeWhile isLocalChar
    let rest := cs.dropWhile isLocalChar
    if run.isEmpty then none
    else
      match rest with
      | [] => some [mkLocalSeg run]
      | c :: rest1 =>
        if isSepChar c then (parseLocal fuel rest1).map (mkLocalSeg run :: ·)
        else none

/-- The optional `+LOCAL` tail followed by the end of the input. -/
def parseLocalThenEnd (cs : List Char) : Option (Option (List LocalSeg)) :=
  match cs with
  | [] => some none
  | '+' :: rest => (parseLocal (rest.length + 1) rest).map some
  | _ => none

/-- The optional dev segment `[-_\.]?dev[-_\.]?([0-9]+)?` followed by the
local tail. -/
def parseDevTail (cs : List Char)
    (k : Option Nat → List Char → Option α) : Option α :=
  parseWordNum ['d', 'e', 'v'] cs (fun n r => k (some n) r) <|> k none cs

/-- The optional post segment: `-([0-9]+)` or `[-_\.]?(post|rev|r)[-_\.]?
([0-9]+)?`, alternatives in the regex's order, followed by `k`. -/
def parsePostTail (cs : List Char)
    (k : Option Nat → List Char → Option α) : Option α :=
  (match cs with
   | '-' :: rest =>
     match readNat rest with
     | some (n, r) => k (some n) r
     | none => none
   | _ => none) <|>
  parseWordNum ['p', 'o', 's', 't'] cs (fun n r => k (some n) r) <|>
  parseWordNum ['r', 'e', 'v'] cs (fun n r => k (some n) r) <|>
  parseWordNum ['r'] cs (fun n r => k (some n) r) <|>
  k none cs

/-- The optional pre segment: separator, one of the spellings
`a|b|c|rc|alpha|beta|pre|preview` (in the regex's alternation order,
normalised as the library does), separator, number; followed by `k`. -/
def parsePreTail (cs : List Char)
    (k : Option (PreTag × Nat) → List Char → Option α) : Option α :=
  parseWordNum ['a'] cs (fun n r => k (some (.a, n)) r) <|>
  parseWordNum ['b'] cs (fun n r => k (some (.b, n)) r) <|>
  parseWordNum ['c'] cs (fun n r => k (some (.rc, n)) r) <|>
  parseWordNum ['r', 'c'] cs (fun n r => k (some (.rc, n)) r) <|>
  parseWordNum ['a', 'l', 'p', 'h', 'a'] cs (fun n r => k (some (.a, n)) r) <|>
  parseWordNum ['b', 'e', 't', 'a'] cs (fun n r => k (some (.b, n)) r) <|>
  parseWordNum ['p', 'r', 'e'] cs (fun n r => k (some (.rc, n)) r) <|>
  parseWordNum ['p', 'r', 'e', 'v', 'i', 'e', 'w'] cs (fun n r => k (some (.rc, n)) r) <|>
  k none cs

/-- Consume further `.N` release components (greedy, like the regex's
`(\.[0-9]+)*`). -/
def parseMoreRelease : Nat → List Char → List Nat → List Nat × List Char
  | 0, cs, acc => (acc, cs)
  | fuel + 1, cs, acc =>
    match cs with
    | '.' :: rest =>
      match readNat rest with
      | some (n, rest1) => parseMoreRelease fuel rest1 (acc ++ [n])
      | none => (acc, cs)
    | _ => (acc, cs)

/-- The optional epoch `N!` followed by the mandatory dotted numeric
release. -/
def parseEpochRelease (cs : List Char) : Option (Nat × List Nat × List Char) :=
  match readNat cs with
  | none => none
  | some (n, rest) =>
    match rest with
    | '!' :: rest1 =>
      match readNat rest1 with
      | none => none
      | some (r1, rest2) =>
        let (rel, rest3) := parseMoreRelease rest2.length rest2 [r1]
        some (n, rel, rest3)
    | _ =>
      let (rel, rest1) := parseMoreRelease rest.length rest [n]
      some (0, rel, rest1)

/-- Parser core over an already trimmed and lowercased character list:
optional `v`, epoch, release, pre, post, dev, local, end of input. -/
def pyParseVersionCore (cs0 : List Char) : Option PyVersion :=
  let cs := match cs0 with | 'v' :: r => r | _ => cs0
  match parseEpochRelease cs with
  | none => none
  | some (ep, rel, rest) =>
    parsePreTail rest (fun preV rest1 =>
      parsePostTail rest1 (fun postV rest2 =>
        parseDevTail rest2 (fun devV rest3 =>
          (parseLocalThenEnd rest3).map (fun loc =>
            { epoch := ep, release := rel, pre := preV, post := postV,
              dev := devV, localSegs := loc }))))

/-- Model of `packaging.version.Version(s)`: `some v` when the string is a
valid PEP 440 version, `none` when the constructor raises
`InvalidVersion`.  The surrounding whitespace and the case-insensitive
matching of the library's pattern are applied up front. -/
def pyParseVersion (s : String) : Option PyVersion :=
  pyParseVersionCore ((stripChars s.toList).map Char.toLower)

/-- Lexicographic comparison of lists given a comparison of elements
(Python tuple comparison: a strict prefix is smaller). -/
def compareList (cmp : α → α → Ordering) : List α → List α → Ordering
  | [], [] => .eq
  | [], _ :: _ => .lt
  | _ :: _, [] => .gt
  | a :: as, b :: bs =>
    match cmp a b with
    | .eq => compareList cmp as bs
    | o => o

/-- Release component of the comparison key: trailing zeros removed. -/
def releaseKey (rel : List Nat) : List Nat :=
  (rel.reverse.dropWhile (· == 0)).reverse

/-- Rank of a normalised pre-release letter ("a" < "b" < "rc"). -/
def PreTag.rank : PreTag → Nat
  | .a => 0
  | .b => 1
  | .rc => 2

/-- Pre-release component of the comparison key: a version with only a
dev segment sorts before its pre-releases (key 0); an actual pre-release
gets key 1 with its letter and number; no pre-release sorts last (key 2),
as in the library's `_cmpkey`. -/
def preKeyOf (v : PyVersion) : Nat × Nat × Nat :=
  match v.pre with
  | some (t, n) => (1, t.rank, n)
  | none => if v.post = none ∧ v.dev ≠ none then (0, 0, 0) else (2, 0, 0)

/-- Post component of the key: absent sorts first. -/
def postKeyOf (v : PyVersion) : Nat × Nat :=
  match v.post with
  | none => (0, 0)
  | some n => (1, n)

/-- Dev component of the key: absent sorts last. -/
def devKeyOf (v : PyVersion) : Nat × Nat :=
  match v.dev with
  | none => (1, 0)
  | some n => (0, n)

/-- Comparison of single local segments: string segments sort before
numeric ones, otherwise componentwise. -/
def compareLocalSeg : LocalSeg → LocalSeg → Ordering
  | .str s, .str t => compare s t
  | .str _, .num _ => .lt
  | .num _, .str _ => .gt
  | .num n, .num m => compare n m

/-- Local component of the key: absent sorts first. -/
def compareLocalKey : Option (List LocalSeg) → Option (List LocalSeg) → Ordering
  | none, none => .eq
  | none, some _ => .lt
  | some _, none => .gt
  | some a, some b => compareList compareLocalSeg a b

/-- Combine comparisons lexicographically. -/
def ordThen (a b : Ordering) : Ordering :=
  match a with
  | .eq => b
  | o => o

/-- Comparison of pairs of naturals. -/
def comparePairNat (a b : Nat × Nat) : Ordering :=
  ordThen (compare a.1 b.1) (compare a.2 b.2)

/-- Comparison of triples of naturals. -/
def compareTripleNat (a b : Nat × Nat × Nat) : Ordering :=
  ordThen (compare a.1 b.1) (comparePairNat a.2 b.2)

/-- Model of the library's total order on versions: compare the epoch,
the trailing-zero-stripped release, then the pre/post/dev/local keys. -/
def pyVerCompare (v w : PyVersion) : Ordering :=
  ordThen (compare v.epoch w.epoch) <|
  ordThen (compareList compare (releaseKey v.release) (releaseKey w.release)) <|
  ordThen (compareTripleNat (preKeyOf v) (preKeyOf w)) <|
  ordThen (comparePairNat (postKeyOf v) (postKeyOf w)) <|
  ordThen (comparePairNat (devKeyOf v) (devKeyOf w))
    (compareLocalKey v.localSegs w.localSegs)

/-- Model of `Version.__lt__`. -/
def pyVerLT (v w : PyVersion) : Bool := pyVerCompare v w == .lt

/-- Model of `Version.__gt__`. -/
def pyVerGT (v w : PyVersion) : Bool := pyVerCompare v w == .gt

/-! ## compatibility.py: parse_netbox_version -/

/-- The sentinel `Version("0.0.0")`. -/
def sentinelVersion : PyVersion := { release := [0, 0, 0] }

/-- Read one `\d+` component for the leading-version pattern. -/
def readComponent (cs : List Char) : Option (List Char × List Char) :=
  if (cs.takeWhile (·.isDigit)).isEmpty then none
  else some (cs.takeWhile (·.isDigit), cs.dropWhile (·.isDigit))

/-- Model of `re.match(r'^(\d+\.\d+\.\d+)', s)` over the character list:
the captured group, or `none` when the pattern does not match at the
start. -/
def extractLeadingVerCore (cs : List Char) : Option (List Char) :=
  match readComponent cs with
  | none => none
  | some (d1, r1) =>
    match r1 with
    | c1 :: r2 =>
      if c1 = '.' then
        match readComponent r2 with
        | none => none
        | some (d2, r3) =>
          match r3 with
          | c2 :: r4 =>
            if c2 = '.' then
              match readComponent r4 with
              | none => none
              | some (d3, _) => some (d1 ++ '.' :: d2 ++ '.' :: d3)
            else none
          | [] => none
      else none
    | [] => none

/-- String form of the leading `MAJOR.MINOR.PATCH` capture. -/
def extractLeadingVer (s : String) : Option String :=
  (extractLeadingVerCore s.toList).map String.mk

/-- Model of `parse_netbox_version`: empty input gives the sentinel; then
a strict parse is attempted; on failure the leading `MAJOR.MINOR.PATCH`
capture is parsed; if that too fails the sentinel is returned.  The
Python function logs instead of raising; the model is total. -/
def parse_netbox_version (s : String) : PyVersion :=
  if s = "" then sentinelVersion
  else
    match pyParseVersion s with
    | some v => v
    | none =>
      match extractLeadingVer s with
      | some p =>
        match pyParseVersion p with
        | some v => v
        | none => sentinelVersion
      | none => sentinelVersion

/-! ## compatibility.py: CompatibilityChecker -/

/-- Python truthiness of an optional string (`None` and `""` are falsy). -/
def truthyStr : Option String → Bool
  | none => false
  | some s => s ≠ ""

/-- Result dict of `CompatibilityChecker.check_compatibility`.  The
`current_netbox_version` entry holds `str(self.netbox_version)` in the
code; the model stores the version value itself. -/
structure CompatResult where
  compatible : Bool
  reason : Option String
  min_version : Option String
  max_version : Option String
  current_netbox_version : PyVersion
deriving DecidableEq, Repr

/-- Model of `CompatibilityChecker.check_compatibility`.  `current` is
`self.netbox_version`.  A truthy `min_version` that parses and exceeds
`current` fails the check and returns at once with the min reason;
otherwise a truthy `max_version` that parses and is below `current`
fails with the max reason; parse failures of a bound are swallowed
(`except: pass`) and the bound is ignored. -/
def check_compatibility (current : PyVersion)
    (min_version max_version : Option String) : CompatResult :=
  let base : CompatResult :=
    { compatible := true, reason := none, min_version := min_version,
      max_version := max_version, current_netbox_version := current }
  let minHit : Option CompatResult :=
    match min_version with
    | some s =>
      if s ≠ "" then
        match pyParseVersion s with
        | some mv =>
          if pyVerLT current mv then
            some { base with
                   compatible := false
                   reason := some ("Requires NetBox >= " ++ s) }
          else none
        | none => none
      else none
    | none => none
  match minHit with
  | some r => r
  | none =>
    match max_version with
    | some s =>
      if s ≠ "" then
        match pyParseVersion s with
        | some mv =>
          if pyVerGT current mv then
            { base with
              compatible := false
              reason := some ("Requires NetBox <= " ++ s) }
          else base
        | none => base
      else base
    | none => base

/-- The dict returned by `CompatibilityChecker.get_plugin_constraints`
when a config object was found: its four entries (each may be `None`).
A `none` at the call sites models the empty dict returned when the
package is not importable or exposes no config object. -/
structure PluginConstraints where
  min_version : Option String := none
  max_version : Option String := none
  name : String := ""
  version : Option String := none
deriving DecidableEq, Repr

/-- Curated catalog entry for one package: the keys the code reads (each
`none` when absent) plus `otherKeys`, which records whether the JSON
object carries any further keys — needed only for dict truthiness. -/
structure CuratedEntry where
  category : Option String := none
  tags : Option (List String) := none
  certification : Option String := none
  netbox_min_version : Option String := none
  netbox_max_version : Option String := none
  notes : Option String := none
  recommended : Option Bool := none
  featured : Option Bool := none
  documentation_url : Option String := none
  replacement : Option String := none
  otherKeys : Bool := false
deriving DecidableEq, Repr

/-- Python truthiness of the curated entry as a dict (nonempty). -/
def CuratedEntry.isNonempty (e : CuratedEntry) : Bool :=
  e.otherKeys || e.category.isSome || e.tags.isSome || e.certification.isSome ||
  e.netbox_min_version.isSome || e.netbox_max_version.isSome || e.notes.isSome ||
  e.recommended.isSome || e.featured.isSome || e.documentation_url.isSome ||
  e.replacement.isSome

/-- Return value of `get_full_compatibility_info`: the check result dict
with the added `source` entry. -/
structure FullCompatResult where
  result : CompatResult
  source : String
deriving DecidableEq, Repr

/-- Model of `CompatibilityChecker.get_full_compatibility_info`.
`constraints` stands for `self.get_plugin_constraints(package_name)`
(dynamic import of the installed package, supplied as an oracle here;
`none` is the empty dict).  `curated_data` is the curated entry, `none`
or an empty entry being falsy.  Curated bounds are read first (source
"curated" when either is truthy); only when both read bounds are falsy
are the installed package's declared constraints consulted (source
"plugin_config" when either is truthy); the collected bounds then go
through `check_compatibility`. -/
def get_full_compatibility_info (current : PyVersion)
    (constraints : Option PluginConstraints)
    (curated_data : Option CuratedEntry) : FullCompatResult :=
  let step1 : Option String × Option String × String :=
    match curated_data with
    | some cd =>
      if cd.isNonempty then
        (cd.netbox_min_version, cd.netbox_max_version,
         if truthyStr cd.netbox_min_version || truthyStr cd.netbox_max_version
           then "curated" else "unknown")
      else (none, none, "unknown")
    | none => (none, none, "unknown")
  let step2 : Option String × Option String × String :=
    if !truthyStr step1.1 && !truthyStr step1.2.1 then
      match constraints with
      | some c =>
        (c.min_version, c.max_version,
         if truthyStr c.min_version || truthyStr c.max_version
           then "plugin_config" else step1.2.2)
      | none => step1
    else step1
  { result := check_compatibility current step2.1 step2.2.1,
    source := step2.2.2 }

/-! ## pypi_client.py: data extracted from the registry -/

/-- The `keywords` value in registry metadata: `null`, a comma-separated
string, or a list (the code handles both shapes). -/
inductive KeywordsVal where
  | null
  | str (s : String)
  | list (l : List String)
deriving DecidableEq, Repr

/-- The `info` object of the registry's per-package JSON, restricted to
the keys `get_package_info` reads; `none` models an absent or `null`
value (the two are indistinguishable to the code except through `.get`
defaults, which are collapsed where noted). -/
structure RawInfo where
  name : Option String := none
  version : Option String := none
  summary : Option String := none
  description : Option String := none
  description_content_type : Option String := none
  author : Option String := none
  author_email : Option String := none
  license : Option String := none
  keywords : KeywordsVal := .null
  classifiers : Option (List String) := none
  requires_python : Option String := none
  requires_dist : Option (List String) := none
  project_urls : Option (List (String × String)) := none
  home_page : Option String := none
deriving DecidableEq, Repr

/-- The per-package JSON document: the `info` object and the keys of the
`releases` mapping. -/
structure RawPackageData where
  info : RawInfo := {}
  releases : List String := []
deriving DecidableEq, Repr

/-- Model of `PyPIClient._extract_author_from_email`: for a `"Name
<email>"` value, the part before the `<`, stripped. -/
def extract_author_from_email : Option String → String
  | none => ""
  | some e =>
    if e = "" then ""
    else if e.toList.contains '<' then
      String.mk (stripChars (e.toList.takeWhile (· != '<')))
    else e

/-- Python `a or b` for an optional string `a` and default string `b`. -/
def pyOrStr (a : Option String) (b : String) : String :=
  match a with
  | some s => if s ≠ "" then s else b
  | none => b

/-- Python `a or b` where both sides are optional strings. -/
def pyOrStrOpt (a b : Option String) : Option String :=
  match a with
  | some s => if s ≠ "" then some s else b
  | none => b

/-- The dict `get_package_info` builds and caches.  `author` is always a
string after the `or`-fallback; `classifiers`, `requires_dist` and
`project_urls` collapse the `.get(..., default)` defaults (`null` and an
absent key both become the default — downstream reads are unaffected). -/
structure PyPIInfo where
  name : Option String := none
  version : Option String := none
  summary : Option String := none
  description : Option String := none
  description_content_type : Option String := none
  author : String := ""
  author_email : Option String := none
  license : Option String := none
  keywords : KeywordsVal := .null
  classifiers : List String := []
  requires_python : Option String := none
  requires_dist : List String := []
  project_urls : List (String × String) := []
  home_page : Option String := none
  releases : List String := []
deriving DecidableEq, Repr

/-- The extraction step of `PyPIClient.get_package_info`: build the
package-info dict from the fetched JSON, with the author and homepage
fallbacks. -/
def extract_package_info (data : RawPackageData) : PyPIInfo :=
  let info := data.info
  { name := info.name
    version := info.version
    summary := info.summary
    description := info.description
    description_content_type := info.description_content_type
    author := pyOrStr info.author (extract_author_from_email info.author_email)
    author_email := info.author_email
    license := info.license
    keywords := info.keywords
    classifiers := info.classifiers.getD []
    requires_python := info.requires_python
    requires_dist := info.requires_dist.getD []
    project_urls := info.project_urls.getD []
    home_page := pyOrStrOpt info.home_page
      ((info.project_urls.getD []).lookup "Homepage")
    releases := data.releases }

/-! ## pypi_client.py: the client's cache behaviour -/

/-- A value stored in the process-wide cache. -/
inductive CacheValue where
  | strList (l : List String)
  | pkgInfo (p : PyPIInfo)
  | strMap (m : List (String × String))
deriving DecidableEq, Repr

/-- Python truthiness of a cached value (`cache.get` returns `None` on a
miss, and the code also refetches on a cached falsy value). -/
def cvTruthy : CacheValue → Bool
  | .strList l => !l.isEmpty
  | .pkgInfo _ => true
  | .strMap m => !m.isEmpty

/-- The Django cache, as a key-to-value map (entry expiry is not
modelled; claims do not depend on TTLs). -/
abbrev Cache := List (String × CacheValue)

/-- Cache read. -/
def cacheGet (c : Cache) (k : String) : Option CacheValue := List.lookup k c

/-- Cache write (replaces any previous entry for the key). -/
def cacheSet (c : Cache) (k : String) (v : CacheValue) : Cache :=
  (k, v) :: c.filter (fun kv => kv.1 != k)

/-- Cache delete. -/
def cacheDelete (c : Cache) (k : String) : Cache :=
  c.filter (fun kv => kv.1 != k)

/-- Key of the package-list cache entry. -/
def pypiPackagesKey : String := "netbox_catalog:pypi_packages"

/-- Key of the installed-inventory cache entry. -/
def installedPackagesKey : String := "netbox_catalog:installed_packages"

/-- Key of the per-package metadata cache entry. -/
def packageCacheKey (package_name : String) : String :=
  "netbox_catalog:package:" ++ package_name

/-- The class constant `PyPIClient.NETBOX_PREFIXES`. -/
def NETBOX_PREFIXES : List String := ["netbox-", "netbox_"]

/-- The package index response: the `name` of each entry of the
`projects` sequence. -/
structure SimpleIndex where
  projects : List String := []
deriving DecidableEq, Repr

/-- Does a package name pass the netbox name filter?  (the name's
lowercase form starts with one of the `NETBOX_PREFIXES`). -/
def isNetboxName (n : String) : Bool :=
  NETBOX_PREFIXES.any (fun p =>
    startsWithCL (n.toList.map Char.toLower) p.toList)

/-- The cached package list, as the code would return it (the key only
ever holds package lists). -/
def cvAsStrList : CacheValue → List String
  | .strList l => l
  | _ => []

/-- The cached package info, as the code would return it. -/
def cvAsPkgInfo : CacheValue → Option PyPIInfo
  | .pkgInfo p => some p
  | _ => none

/-- The fetch-and-filter path of `get_all_netbox_packages`: on a network
or JSON error (`requests.RequestException`, modelled by `Except.error`)
log and return the empty list without touching the cache; otherwise keep
the names passing the netbox filter and cache them. -/
def getAllNetboxPackagesFetch (fetchIndex : Except Unit SimpleIndex)
    (c : Cache) : List String × Cache :=
  match fetchIndex with
  | .error _ => ([], c)
  | .ok data =>
    let packages := data.projects.filter isNetboxName
    (packages, cacheSet c pypiPackagesKey (.strList packages))

/-- Model of `PyPIClient.get_all_netbox_packages`: a truthy cached value
is returned as is; otherwise the fetch path runs.  `fetchIndex` stands
for the HTTP GET of the package index. -/
def get_all_netbox_packages (fetchIndex : Except Unit SimpleIndex)
    (c : Cache) : List String × Cache :=
  match cacheGet c pypiPackagesKey with
  | some v =>
    if cvTruthy v then (cvAsStrList v, c)
    else getAllNetboxPackagesFetch fetchIndex c
  | none => getAllNetboxPackagesFetch fetchIndex c

/-- The fetch path of `get_package_info`: errors yield `none` without
touching the cache; otherwise the extracted info dict is cached and
returned. -/
def getPackageInfoFetch (package_name : String)
    (fetchPkg : Except Unit RawPackageData) (c : Cache) :
    Option PyPIInfo × Cache :=
  match fetchPkg with
  | .error _ => (none, c)
  | .ok data =>
    let pi := extract_package_info data
    (some pi, cacheSet c (packageCacheKey package_name) (.pkgInfo pi))

/-- Model of `PyPIClient.get_package_info`: a truthy cached value is
returned as is; otherwise the fetch path runs.  `fetchPkg` stands for
the HTTP GET of the per-package JSON. -/
def get_package_info (package_name : String)
    (fetchPkg : Except Unit RawPackageData) (c : Cache) :
    Option PyPIInfo × Cache :=
  match cacheGet c (packageCacheKey package_name) with
  | some v =>
    if cvTruthy v then (cvAsPkgInfo v, c)
    else getPackageInfoFetch package_name fetchPkg c
  | none => getPackageInfoFetch package_name fetchPkg c

/-- Model of `PyPIClient.clear_cache`: only the package-list entry is
deleted (the code notes that individual package entries would need to be
tracked to clear them). -/
def clear_cache (c : Cache) : Cache := cacheDelete c pypiPackagesKey

/-! ## catalog_service.py -/

/-- The curated catalog document. -/
structure CuratedCatalog where
  plugins : List (String × CuratedEntry) := []
  categories : List String := []
  certification_levels : List (String × String) := []
deriving DecidableEq, Repr

/-- The mutable state of a `CatalogService` instance together with the
process-wide cache it shares. -/
structure CatalogServiceState where
  djCache : Cache := []
  curatedData : Option CuratedCatalog := none
  installedPackages : Option (List (String × String)) := none
deriving DecidableEq, Repr

/-- Model of `CatalogService.refresh_cache`: clear the client's cache
(the package-list entry), delete the installed-inventory entry, and drop
both in-process caches. -/
def refresh_cache (s : CatalogServiceState) : CatalogServiceState :=
  { djCache := cacheDelete (clear_cache s.djCache) installedPackagesKey,
    curatedData := none,
    installedPackages := none }

/-- Model of the `curated_data` property: return the in-process cached
catalog, or load it (`loaded` stands for `_load_curated_catalog()`) and
remember it. -/
def curated_data_property (s : CatalogServiceState)
    (loaded : CuratedCatalog) : CuratedCatalog × CatalogServiceState :=
  match s.curatedData with
  | some d => (d, s)
  | none => (loaded, { s with curatedData := some loaded })

/-- The record `_merge_plugin_info` and `get_all_plugins` build.  Field
types follow the values the code actually assigns (several registry
fields may be `None` at runtime even though the dataclass annotates
`str`). -/
structure PluginInfo where
  name : String := ""
  version : Option String := some ""
  summary : Option String := some ""
  description : Option String := some ""
  author : String := ""
  license : Option String := some ""
  keywords : List String := []
  home_page : Option String := some ""
  project_urls : List (String × String) := []
  requires_python : Option String := some ""
  requires_dist : List String := []
  releases : List String := []
  category : String := "Other"
  tags : List String := []
  certification : String := "untested"
  netbox_min_version : String := ""
  netbox_max_version : String := ""
  notes : String := ""
  recommended : Bool := true
  featured : Bool := false
  documentation_url : String := ""
  replacement : String := ""
  installed_version : String := ""
  is_activated : Bool := false
  upgrade_available : Bool := false
  is_compatible : Bool := true
  compatibility_reason : Option String := some ""
  compatibility_source : String := "unknown"
deriving DecidableEq, Repr

/-- The keyword normalisation in `_merge_plugin_info`: `keywords or ""`,
then a string is split on commas, stripped and filtered; a nonempty list
is kept as is. -/
def splitKeywords (s : String) : List String :=
  (splitOnChar ',' s.toList).filterMap (fun k =>
    let t := stripChars k
    if t.isEmpty then none else some (String.mk t))

/-- Normalise the registry `keywords` value as the merge does. -/
def normalizeKeywords : KeywordsVal → List String
  | .null => splitKeywords ""
  | .str s => splitKeywords s
  | .list l => if l.isEmpty then splitKeywords "" else l

/-- Model of `CatalogService._merge_plugin_info`: registry fields pass
through (the built info dict always carries all its keys, so the `.get`
string defaults never apply), curated fields apply their documented
defaults. -/
def merge_plugin_info (name : String) (pypi_info : PyPIInfo)
    (curated_info : CuratedEntry) : PluginInfo :=
  { name := name
    version := pypi_info.version
    summary := pypi_info.summary
    description := pypi_info.description
    author := pypi_info.author
    license := pypi_info.license
    keywords := normalizeKeywords pypi_info.keywords
    home_page := pypi_info.home_page
    project_urls := pypi_info.project_urls
    requires_python := pypi_info.requires_python
    requires_dist := pypi_info.requires_dist
    releases := pypi_info.releases
    category := curated_info.category.getD "Other"
    tags := curated_info.tags.getD []
    certification := curated_info.certification.getD "untested"
    netbox_min_version := curated_info.netbox_min_version.getD ""
    netbox_max_version := curated_info.netbox_max_version.getD ""
    notes := curated_info.notes.getD ""
    recommended := curated_info.recommended.getD true
    featured := curated_info.featured.getD false
    documentation_url := curated_info.documentation_url.getD ""
    replacement := curated_info.replacement.getD "" }

/-- The per-package body of the `get_all_plugins` loop (also the body of
`get_plugin` after its registry lookup): merge, annotate runtime status
and compatibility. -/
def buildPluginRecord (current : PyVersion)
    (constraintsOf : String → Option PluginConstraints)
    (installed : List (String × String)) (activated : List String)
    (name : String) (pypi_info : PyPIInfo) (curated_info : CuratedEntry) :
    PluginInfo :=
  let plugin := merge_plugin_info name pypi_info curated_info
  let plugin :=
    match List.lookup name installed with
    | some iv =>
      { plugin with
        installed_version := iv
        upgrade_available := plugin.version != some iv }
    | none => plugin
  let module_name :=
    String.mk (name.toList.map (fun c => if c == '-' then '_' else c))
  let plugin := { plugin with is_activated := activated.contains module_name }
  let ci := get_full_compatibility_info current (constraintsOf name)
    (some curated_info)
  { plugin with
    is_compatible := ci.result.compatible
    compatibility_reason := ci.result.reason
    compatibility_source := ci.source }

/-- Model of `CatalogService.get_all_plugins`.  The oracles stand for
the I/O the loop performs per name: `pypiInfoOf` for
`pypi_client.get_package_info` (registry metadata, perhaps cached) and
`constraintsOf` for the dynamic import inside the compatibility checker;
`installed` is `_get_installed_packages()` and `activated`
`_get_activated_plugins()`.  A name is skipped when uncurated records
are excluded and its curated entry is absent or empty, or when the
registry has no metadata for it. -/
def get_all_plugins (current : PyVersion)
    (constraintsOf : String → Option PluginConstraints)
    (package_names : List String)
    (curatedPlugins : List (String × CuratedEntry))
    (pypiInfoOf : String → Option PyPIInfo)
    (installed : List (String × String)) (activated : List String)
    (include_uncurated : Bool) : List PluginInfo :=
  package_names.filterMap (fun name =>
    let curated_info := (List.lookup name curatedPlugins).getD {}
    if !include_uncurated && !curated_info.isNonempty then none
    else
      match pypiInfoOf name with
      | none => none
      | some pypi_info =>
        some (buildPluginRecord current constraintsOf installed activated
          name pypi_info curated_info))

/-- Model of `CatalogService.get_plugin`: `none` when the registry has
no metadata for the name, else the same record the loop would build. -/
def get_plugin (current : PyVersion)
    (constraintsOf : String → Option PluginConstraints)
    (curatedPlugins : List (String × CuratedEntry))
    (pypiInfoOf : String → Option PyPIInfo)
    (installed : List (String × String)) (activated : List String)
    (name : String) : Option PluginInfo :=
  match pypiInfoOf name with
  | none => none
  | some pypi_info =>
    let curated_info := (List.lookup name curatedPlugins).getD {}
    some (buildPluginRecord current constraintsOf installed activated
      name pypi_info curated_info)

/-! ## Statement devices and concrete inputs used by the theorems -/

/-- The version bound `check_compatibility` effectively enforces for one
optional bound string: present, nonempty and parseable, else none. -/
def effectiveBound (b : Option String) : Option PyVersion :=
  match b with
  | some s => if s ≠ "" then pyParseVersion s else none
  | none => none

/-- Does the curated entry supply a (truthy) min or max bound? -/
def curatedBoundsTruthy : Option CuratedEntry → Bool
  | some e => truthyStr e.netbox_min_version || truthyStr e.netbox_max_version
  | none => false

/-- Does the installed package declare a (truthy) min or max bound? -/
def constraintsBoundsTruthy : Option PluginConstraints → Bool
  | some c => truthyStr c.min_version || truthyStr c.max_version
  | none => false

/-- Registry metadata used by the concrete catalog examples. -/
def wFooInfo : PyPIInfo := { version := some "2.0.0" }

/-- Registry oracle for the concrete catalog examples. -/
def wPypiOf (n : String) : Option PyPIInfo :=
  if n = "netbox-foo" then some wFooInfo else none

/-- Installed inventory for the concrete catalog examples. -/
def wInstalled : List (String × String) := [("netbox-foo", "1.0.0")]

/-- Curated mapping for the concrete catalog examples. -/
def wCurated : List (String × CuratedEntry) :=
  [("netbox-foo", { category := some "Networking" })]

/-- The record the catalog loop builds for the concrete example. -/
def wFooRecord : PluginInfo :=
  buildPluginRecord sentinelVersion (fun _ => none) wInstalled []
    "netbox-foo" wFooInfo {}

/-- The record built for the curated concrete example. -/
def wFooRecordCurated : PluginInfo :=
  buildPluginRecord sentinelVersion (fun _ => none) wInstalled []
    "netbox-foo" wFooInfo { category := some "Networking" }

/-- Registry metadata whose `version` entry is `null`: `info.get("version")`
returns `None` and the merged record carries no registry version. -/
def wBazInfo : PyPIInfo := {}

/-- Registry oracle serving the version-less metadata. -/
def wPypiNoVer (n : String) : Option PyPIInfo :=
  if n = "netbox-baz" then some wBazInfo else none

/-- Installed inventory for the version-less registry example. -/
def wInstalledBaz : List (String × String) := [("netbox-baz", "1.0.0")]

/-- The record the loop builds for the version-less registry example. -/
def wBazRecord : PluginInfo :=
  buildPluginRecord sentinelVersion (fun _ => none) wInstalledBaz []
    "netbox-baz" wBazInfo {}

/-- A per-package cache value surviving a refresh in the cache example. -/
def cachedFooInfo : PyPIInfo := { version := some "1.0.0" }

/-- A distinguishable fresh registry response for the cache example. -/
def freshFooRaw : RawPackageData := { info := { version := some "2.0.0" } }

/-- Service state holding a per-package cache entry. -/
def exampleState : CatalogServiceState :=
  { djCache := [(packageCacheKey "netbox-foo", .pkgInfo cachedFooInfo)],
    curatedData := some {},
    installedPackages := some [] }

/-! ## Helper lemmas -/

/-- An absent optional string is not truthy. -/
lemma truthyStr_none : truthyStr none = false := rfl

/-- A truthy optional string is present. -/
lemma truthyStr_isSome {b : Option String} (h : truthyStr b = true) :
    b.isSome = true := by
  cases b with
  | none => simp [truthyStr] at h
  | some s => rfl

/-- A non-truthy bound contributes no effective bound. -/
lemma effectiveBound_of_not_truthy {b : Option String}
    (h : truthyStr b = false) : effectiveBound b = none := by
  cases b with
  | none => rfl
  | some s =>
    simp only [truthyStr, decide_eq_false_iff_not, Decidable.not_not] at h
    simp [effectiveBound, h]

/-- Case analysis of `check_compatibility`: either the min bound fires
(with the min reason), or it does not and the max bound fires (with the
max reason), or neither does and the verdict is compatible. -/
lemma check_compatibility_cases (current : PyVersion)
    (minS maxS : Option String) :
    (∃ s mv, minS = some s ∧ s ≠ "" ∧ pyParseVersion s = some mv ∧
      pyVerLT current mv = true ∧
      check_compatibility current minS maxS =
        { compatible := false, reason := some ("Requires NetBox >= " ++ s),
          min_version := minS, max_version := maxS,
          current_netbox_version := current }) ∨
    (((effectiveBound minS).map (pyVerLT current)).getD false = false ∧
      ((∃ t Mv, maxS = some t ∧ t ≠ "" ∧ pyParseVersion t = some Mv ∧
        pyVerGT current Mv = true ∧
        check_compatibility current minS maxS =
          { compatible := false, reason := some ("Requires NetBox <= " ++ t),
            min_version := minS, max_version := maxS,
            current_netbox_version := current }) ∨
       (((effectiveBound maxS).map (pyVerGT current)).getD false = false ∧
        check_compatibility current minS maxS =
          { compatible := true, reason := none,
            min_version := minS, max_version := maxS,
            current_netbox_version := current }))) := by
  have hmax : ∀ hminF : ((effectiveBound minS).map (pyVerLT current)).getD false = false,
      (∃ t Mv, maxS = some t ∧ t ≠ "" ∧ pyParseVersion t = some Mv ∧
        pyVerGT current Mv = true ∧
        check_compatibility current minS maxS =
          { compatible := false, reason := some ("Requires NetBox <= " ++ t),
            min_version := minS, max_version := maxS,
            current_netbox_version := current }) ∨
       (((effectiveBound maxS).map (pyVerGT current)).getD false = false ∧
        check_compatibility current minS maxS =
          { compatible := true, reason := none,
            min_version := minS, max_version := maxS,
            current_netbox_version := current }) := by
    intro hminF
    have h :
        check_compatibility current minS maxS =
          (match maxS with
           | some s =>
             if s ≠ "" then
               match pyParseVersion s with
               | some mv =>
                 if pyVerGT current mv then
                   { compatible := false,
                     reason := some ("Requires NetBox <= " ++ s),
                     min_version := minS, max_version := maxS,
                     current_netbox_version := current }
                 else
                   { compatible := true, reason := none,
                     min_version := minS, max_version := maxS,
                     current_netbox_version := current }
               | none =>
                 { compatible := true, reason := none,
                   min_version := minS, max_version := maxS,
                   current_netbox_version := current }
             else
               { compatible := true, reason := none,
                 min_version := minS, max_version := maxS,
                 current_netbox_version := current }
           | none =>
             { compatible := true, reason := none,
               min_version := minS, max_version := maxS,
               current_netbox_version := current } : CompatResult) := by
      cases minS with
      | none => rfl
      | some s =>
        by_cases hs : s = ""
        · subst hs; rfl
        · cases hp : pyParseVersion s with
          | none => simp [check_compatibility, hs, hp]
          | some mv =>
            have : pyVerLT current mv = false := by
              simpa [effectiveBound, hs, hp] using hminF
            simp [check_compatibility, hs, hp, this]
    rw [h]
    cases maxS with
    | none => right; exact ⟨by simp [effectiveBound], rfl⟩
    | some t =>
      by_cases ht : t = ""
      · right
        refine ⟨by simp [effectiveBound, ht], ?_⟩
        simp [ht]
      · cases hp : pyParseVersion t with
        | none =>
          right
          refine ⟨by simp [effectiveBound, ht, hp], ?_⟩
          simp [ht, hp]
        | some Mv =>
          by_cases hgt : pyVerGT current Mv
          · left
            refine ⟨t, Mv, rfl, ht, hp, hgt, ?_⟩
            simp [ht, hp, hgt]
          · right
            constructor
            · simp only [Bool.not_eq_true] at hgt
              simp [effectiveBound, ht, hp, hgt]
            · simp [ht, hp, hgt]
  cases minS with
  | none => exact Or.inr ⟨by simp [effectiveBound], hmax (by simp [effectiveBound])⟩
  | some s =>
    by_cases hs : s = ""
    · refine Or.inr ⟨?_, hmax ?_⟩ <;> simp [effectiveBound, hs]
    · cases hp : pyParseVersion s with
      | none =>
        refine Or.inr ⟨?_, hmax ?_⟩ <;> simp [effectiveBound, hs, hp]
      | some mv =>
        by_cases hlt : pyVerLT current mv
        · exact Or.inl ⟨s, mv, rfl, hs, hp, hlt,
            by simp [check_compatibility, hs, hp, hlt]⟩
        · have hF : ((effectiveBound (some s)).map (pyVerLT current)).getD false = false := by
            simp only [Bool.not_eq_true] at hlt
            simp [effectiveBound, hs, hp, hlt]
          exact Or.inr ⟨hF, hmax hF⟩

/-- With two non-truthy bounds the check changes nothing. -/
lemma check_of_not_truthy (current : PyVersion) {m M : Option String}
    (hm : truthyStr m = false) (hM : truthyStr M = false) :
    check_compatibility current m M =
      { compatible := true, reason := none, min_version := m,
        max_version := M, current_netbox_version := current } := by
  rcases check_compatibility_cases current m M with
    ⟨s, mv, hs, hne, _, _, _⟩ | ⟨_, ⟨t, Mv, ht, hneT, _, _, _⟩ | ⟨_, heq⟩⟩
  · subst hs; simp [truthyStr, hne] at hm
  · subst ht; simp [truthyStr, hneT] at hM
  · exact heq

/-- A curated entry with a truthy bound is a nonempty dict. -/
lemma isNonempty_of_truthy_bounds {e : CuratedEntry}
    (h : (truthyStr e.netbox_min_version || truthyStr e.netbox_max_version) = true) :
    e.isNonempty = true := by
  rcases Bool.or_eq_true_iff.mp h with h1 | h1 <;>
    · have := truthyStr_isSome h1
      simp [CuratedEntry.isNonempty, this]

/-- When the curated entry supplies a truthy bound, the resolution uses
the curated bounds and reports source "curated", whatever the installed
package declares. -/
lemma get_full_compatibility_info_curated (current : PyVersion)
    (constraints : Option PluginConstraints) (e : CuratedEntry)
    (h : (truthyStr e.netbox_min_version || truthyStr e.netbox_max_version) = true) :
    get_full_compatibility_info current constraints (some e) =
      { result := check_compatibility current e.netbox_min_version e.netbox_max_version,
        source := "curated" } := by
  have hne := isNonempty_of_truthy_bounds h
  have hguard : (!truthyStr e.netbox_min_version && !truthyStr e.netbox_max_version) = false := by
    rcases Bool.or_eq_true_iff.mp h with h1 | h1 <;> simp [h1]
  simp [get_full_compatibility_info, hne, h, hguard]

/-- When the curated entry supplies no truthy bound but the installed
package declares one, the resolution uses the declared bounds and
reports source "plugin_config". -/
lemma get_full_compatibility_info_plugin (current : PyVersion)
    (c : PluginConstraints) (curated : Option CuratedEntry)
    (hcur : curatedBoundsTruthy curated = false)
    (hc : (truthyStr c.min_version || truthyStr c.max_version) = true) :
    get_full_compatibility_info current (some c) curated =
      { result := check_compatibility current c.min_version c.max_version,
        source := "plugin_config" } := by
  cases curated with
  | none => simp [get_full_compatibility_info, truthyStr_none, hc]
  | some e =>
    have hb : (truthyStr e.netbox_min_version || truthyStr e.netbox_max_version) = false := by
      simpa [curatedBoundsTruthy] using hcur
    have h1 : truthyStr e.netbox_min_version = false ∧
        truthyStr e.netbox_max_version = false := Bool.or_eq_false_iff.mp hb
    by_cases hne : e.isNonempty <;>
      simp [get_full_compatibility_info, truthyStr_none, hne, h1.1, h1.2, hc]

/-- When neither source supplies a truthy bound, the resolution reports
source "unknown" and checks against two non-truthy bounds. -/
lemma get_full_compatibility_info_unknown (current : PyVersion)
    (constraints : Option PluginConstraints) (curated : Option CuratedEntry)
    (hcur : curatedBoundsTruthy curated = false)
    (hcons : constraintsBoundsTruthy constraints = false) :
    ∃ m M, truthyStr m = false ∧ truthyStr M = false ∧
      get_full_compatibility_info current constraints curated =
        { result := check_compatibility current m M, source := "unknown" } := by
  have hde : ∀ e : CuratedEntry, curated = some e →
      truthyStr e.netbox_min_version = false ∧ truthyStr e.netbox_max_version = false := by
    rintro e rfl
    have hb : (truthyStr e.netbox_min_version || truthyStr e.netbox_max_version) = false := by
      simpa [curatedBoundsTruthy] using hcur
    exact Bool.or_eq_false_iff.mp hb
  have hdc : ∀ c : PluginConstraints, constraints = some c →
      truthyStr c.min_version = false ∧ truthyStr c.max_version = false := by
    rintro c rfl
    have hb : (truthyStr c.min_version || truthyStr c.max_version) = false := by
      simpa [constraintsBoundsTruthy] using hcons
    exact Bool.or_eq_false_iff.mp hb
  cases curated with
  | none =>
    cases constraints with
    | none =>
      exact ⟨none, none, rfl, rfl,
        by simp [get_full_compatibility_info, truthyStr_none]⟩
    | some c =>
      obtain ⟨hc1, hc2⟩ := hdc c rfl
      exact ⟨c.min_version, c.max_version, hc1, hc2,
        by simp [get_full_compatibility_info, truthyStr_none, hc1, hc2]⟩
  | some e =>
    obtain ⟨he1, he2⟩ := hde e rfl
    by_cases hne : e.isNonempty
    · cases constraints with
      | none =>
        exact ⟨e.netbox_min_version, e.netbox_max_version, he1, he2,
          by simp [get_full_compatibility_info, truthyStr_none, hne, he1, he2]⟩
      | some c =>
        obtain ⟨hc1, hc2⟩ := hdc c rfl
        exact ⟨c.min_version, c.max_version, hc1, hc2,
          by simp [get_full_compatibility_info, truthyStr_none, hne, he1, he2, hc1, hc2]⟩
    · cases constraints with
      | none =>
        exact ⟨none, none, rfl, rfl,
          by simp [get_full_compatibility_info, truthyStr_none, hne]⟩
      | some c =>
        obtain ⟨hc1, hc2⟩ := hdc c rfl
        exact ⟨c.min_version, c.max_version, hc1, hc2,
          by simp [get_full_compatibility_info, truthyStr_none, hne, hc1, hc2]⟩

/-! ## Claims about the compatibility checker -/

/-- Claim C2: for every current host version and optional min/max bound
strings, `check_compatibility` is compatible unless the current version
is below an effective (present, nonempty, parseable) min bound — then it
fails with the min-bound reason — or above an effective max bound — then
it fails with the max-bound reason; bounds that are absent, empty or
unparseable impose nothing.  Totality (never raises) holds by
construction of the model. -/
theorem claim_C2 (current : PyVersion) (minS maxS : Option String)
    (r : CompatResult) (vmin vmax : Bool)
    (hr : r = check_compatibility current minS maxS)
    (hmin : vmin = ((effectiveBound minS).map (pyVerLT current)).getD false)
    (hmax : vmax = ((effectiveBound maxS).map (pyVerGT current)).getD false) :
    (r.compatible = (!vmin && !vmax)) ∧
    (vmin = true → r.reason = some ("Requires NetBox >= " ++ minS.getD "")) ∧
    (vmin = false → vmax = true →
      r.reason = some ("Requires NetBox <= " ++ maxS.getD "")) ∧
    (vmin = false → vmax = false → r.reason = none) := by
  subst hr hmin hmax
  rcases check_compatibility_cases current minS maxS with
    ⟨s, mv, hs, hne, hp, hlt, heq⟩ |
    ⟨hminF, ⟨t, Mv, ht, hneT, hpT, hgt, heq⟩ | ⟨hmaxF, heq⟩⟩
  · subst hs
    have hvmin : ((effectiveBound (some s)).map (pyVerLT current)).getD false = true := by
      simp [effectiveBound, hne, hp, hlt]
    rw [heq, hvmin]
    exact ⟨by simp, fun _ => by simp, fun hF => by simp at hF,
      fun hF => by simp at hF⟩
  · subst ht
    have hvmax : ((effectiveBound (some t)).map (pyVerGT current)).getD false = true := by
      simp [effectiveBound, hneT, hpT, hgt]
    rw [heq, hminF, hvmax]
    exact ⟨by simp, fun h => by simp at h, fun _ _ => by simp,
      fun _ h => by simp at h⟩
  · rw [heq, hminF, hmaxF]
    exact ⟨by simp, fun h => by simp at h, fun _ h => by simp at h,
      fun _ _ => by simp⟩

/-- Witness for C2 on the spec's example: current 3.9.0 against min
4.0.0 is incompatible with the min-bound reason. -/
theorem claim_C2_witness :
    (check_compatibility (parse_netbox_version "3.9.0") (some "4.0.0") none).compatible = false ∧
    (check_compatibility (parse_netbox_version "3.9.0") (some "4.0.0") none).reason =
      some ("Requires NetBox >= " ++ "4.0.0") := by
  have h := claim_C2 (parse_netbox_version "3.9.0") (some "4.0.0") none
    (check_compatibility (parse_netbox_version "3.9.0") (some "4.0.0") none)
    (((effectiveBound (some "4.0.0")).map (pyVerLT (parse_netbox_version "3.9.0"))).getD false)
    (((effectiveBound (none : Option String)).map (pyVerGT (parse_netbox_version "3.9.0"))).getD false)
    rfl rfl rfl
  refine ⟨?_, h.2.1 (by decide)⟩
  rw [h.1]; decide

/-- Claim C9: when both bounds parse and both are violated (current
below min and above max), the min bound is checked first and the
function returns at once with the min-bound reason. -/
theorem claim_C9 (current : PyVersion) (minS maxS : Option String)
    (mv Mv : PyVersion)
    (hm : effectiveBound minS = some mv) (hM : effectiveBound maxS = some Mv)
    (hlt : pyVerLT current mv = true) (hgt : pyVerGT current Mv = true) :
    (check_compatibility current minS maxS).compatible = false ∧
    (check_compatibility current minS maxS).reason =
      some ("Requires NetBox >= " ++ minS.getD "") := by
  rcases check_compatibility_cases current minS maxS with
    ⟨s, mv2, hs, hne, hp, hlt2, heq⟩ | ⟨hminF, _⟩
  · subst hs; rw [heq]; exact ⟨rfl, by simp⟩
  · rw [hm] at hminF
    simp [hlt] at hminF

/-- Witness for C9: current 5.0.0 with min 6.0.0 and max 4.0.0 violates
both bounds and reports the min-bound reason. -/
theorem claim_C9_witness :
    (check_compatibility (parse_netbox_version "5.0.0") (some "6.0.0") (some "4.0.0")).compatible = false ∧
    (check_compatibility (parse_netbox_version "5.0.0") (some "6.0.0") (some "4.0.0")).reason =
      some ("Requires NetBox >= " ++ "6.0.0") :=
  claim_C9 (parse_netbox_version "5.0.0") (some "6.0.0") (some "4.0.0")
    { release := [6, 0, 0] } { release := [4, 0, 0] }
    (by decide) (by decide) (by decide) (by decide)

/-- Claim C1 (amended): the resolution precedence holds as specified,
except that the second source is reported as "plugin_config" (the
claim's label "plugin_declared" never occurs in the code): curated
truthy bounds win with source "curated"; otherwise declared truthy
bounds are used with source "plugin_config"; otherwise the verdict is
compatible with source "unknown". -/
theorem claim_C1 (current : PyVersion) (constraints : Option PluginConstraints)
    (curated : Option CuratedEntry) :
    (∀ e, curated = some e →
      (truthyStr e.netbox_min_version || truthyStr e.netbox_max_version) = true →
      get_full_compatibility_info current constraints curated =
        { result := check_compatibility current e.netbox_min_version e.netbox_max_version,
          source := "curated" }) ∧
    (curatedBoundsTruthy curated = false →
      ∀ c, constraints = some c →
      (truthyStr c.min_version || truthyStr c.max_version) = true →
      get_full_compatibility_info current constraints curated =
        { result := check_compatibility current c.min_version c.max_version,
          source := "plugin_config" }) ∧
    (curatedBoundsTruthy curated = false →
      constraintsBoundsTruthy constraints = false →
      (get_full_compatibility_info current constraints curated).result.compatible = true ∧
      (get_full_compatibility_info current constraints curated).result.reason = none ∧
      (get_full_compatibility_info current constraints curated).source = "unknown") := by
  refine ⟨?_, ?_, ?_⟩
  · rintro e rfl hb
    exact get_full_compatibility_info_curated current constraints e hb
  · rintro hcur c rfl hc
    exact get_full_compatibility_info_plugin current c curated hcur hc
  · intro hcur hcons
    obtain ⟨m, M, hmF, hMF, heq⟩ :=
      get_full_compatibility_info_unknown current constraints curated hcur hcons
    rw [heq, check_of_not_truthy current hmF hMF]
    exact ⟨rfl, rfl, rfl⟩

/-- Counterexample for C1 as stated: with no curated bounds and a
declared min bound, the code reports source "plugin_config", not the
claimed "plugin_declared". -/
theorem claim_C1_counterexample :
    (get_full_compatibility_info (parse_netbox_version "4.2.0")
      (some { min_version := some "3.0" }) none).source = "plugin_config" ∧
    (get_full_compatibility_info (parse_netbox_version "4.2.0")
      (some { min_version := some "3.0" }) none).source ≠ "plugin_declared" := by
  exact ⟨rfl, by decide⟩

/-- Witness for the amended C1 at a concrete input exercising the
declared-constraints branch. -/
theorem claim_C1_witness :
    get_full_compatibility_info (parse_netbox_version "4.2.0")
      (some { min_version := some "3.0" }) none =
      { result := check_compatibility (parse_netbox_version "4.2.0") (some "3.0") none,
        source := "plugin_config" } :=
  (claim_C1 (parse_netbox_version "4.2.0")
    (some { min_version := some "3.0" }) none).2.1
    rfl { min_version := some "3.0" } rfl (by decide)

/-- Claim C10: whenever the resolution reports source "unknown" the
verdict is compatible with no reason, and an incompatible verdict can
only come with a non-"unknown" source. -/
theorem claim_C10 (current : PyVersion) (constraints : Option PluginConstraints)
    (curated : Option CuratedEntry) :
    ((get_full_compatibility_info current constraints curated).source = "unknown" →
      (get_full_compatibility_info current constraints curated).result.compatible = true ∧
      (get_full_compatibility_info current constraints curated).result.reason = none) ∧
    ((get_full_compatibility_info current constraints curated).result.compatible = false →
      (get_full_compatibility_info current constraints curated).source ≠ "unknown") := by
  by_cases hcur : curatedBoundsTruthy curated = true
  · obtain ⟨e, rfl⟩ : ∃ e, curated = some e := by
      cases curated with
      | none => simp [curatedBoundsTruthy] at hcur
      | some e => exact ⟨e, rfl⟩
    have hb : (truthyStr e.netbox_min_version || truthyStr e.netbox_max_version) = true := by
      simpa [curatedBoundsTruthy] using hcur
    rw [get_full_compatibility_info_curated current constraints e hb]
    exact ⟨fun h => by simp at h, fun _ => by simp⟩
  · have hcurF : curatedBoundsTruthy curated = false := Bool.eq_false_iff.mpr hcur
    by_cases hcons : constraintsBoundsTruthy constraints = true
    · obtain ⟨c, rfl⟩ : ∃ c, constraints = some c := by
        cases constraints with
        | none => simp [constraintsBoundsTruthy] at hcons
        | some c => exact ⟨c, rfl⟩
      have hc : (truthyStr c.min_version || truthyStr c.max_version) = true := by
        simpa [constraintsBoundsTruthy] using hcons
      rw [get_full_compatibility_info_plugin current c curated hcurF hc]
      exact ⟨fun h => by simp at h, fun _ => by simp⟩
    · have hconsF : constraintsBoundsTruthy constraints = false :=
        Bool.eq_false_iff.mpr hcons
      obtain ⟨m, M, hmF, hMF, heq⟩ :=
        get_full_compatibility_info_unknown current constraints curated hcurF hconsF
      rw [heq, check_of_not_truthy current hmF hMF]
      exact ⟨fun _ => ⟨rfl, rfl⟩, fun h => by simp at h⟩

/-- Witness for C10 at the all-unknown input. -/
theorem claim_C10_witness :
    (get_full_compatibility_info sentinelVersion none none).source = "unknown" ∧
    (get_full_compatibility_info sentinelVersion none none).result.compatible = true ∧
    (get_full_compatibility_info sentinelVersion none none).result.reason = none := by
  have h := (claim_C10 sentinelVersion none none).1 rfl
  exact ⟨rfl, h.1, h.2⟩

/-- Claim C5: a string that neither parses strictly nor starts with a
`MAJOR.MINOR.PATCH` numeric run parses to the sentinel 0.0.0; the model
is total, matching the function's never-raises contract. -/
theorem claim_C5 (s : String) (h1 : pyParseVersion s = none)
    (h2 : extractLeadingVer s = none) :
    parse_netbox_version s = sentinelVersion := by
  by_cases hs : s = ""
  · simp [parse_netbox_version, hs]
  · simp [parse_netbox_version, hs, h1, h2]

/-- Witness for C5 on a malformed version string. -/
theorem claim_C5_witness :
    pyParseVersion "abc" = none ∧ extractLeadingVer "abc" = none ∧
    parse_netbox_version "abc" = sentinelVersion :=
  ⟨by decide, by decide, claim_C5 "abc" (by decide) (by decide)⟩

/-! ## The leading-version capture (claim C4) -/

/-- Taking while a predicate holds passes over a block whose elements
all satisfy it. -/
lemma takeWhile_append_of_all {α} (p : α → Bool) (l r : List α)
    (h : ∀ c ∈ l, p c = true) :
    (l ++ r).takeWhile p = l ++ r.takeWhile p := by
  induction l with
  | nil => simp
  | cons a as ih =>
    have ha := h a (by simp)
    have ih2 := ih (fun c hc => h c (by simp [hc]))
    simp [List.takeWhile_cons, ha, ih2]

/-- Dropping while a predicate holds passes over a block whose elements
all satisfy it. -/
lemma dropWhile_append_of_all {α} (p : α → Bool) (l r : List α)
    (h : ∀ c ∈ l, p c = true) :
    (l ++ r).dropWhile p = r.dropWhile p := by
  induction l with
  | nil => simp
  | cons a as ih =>
    have ha := h a (by simp)
    have ih2 := ih (fun c hc => h c (by simp [hc]))
    simp [List.dropWhile_cons, ha, ih2]

/-- If `takeWhile` yields nothing, `dropWhile` keeps everything. -/
lemma dropWhile_of_takeWhile_nil {α} {p : α → Bool} {r : List α}
    (h : r.takeWhile p = []) : r.dropWhile p = r := by
  cases r with
  | nil => rfl
  | cons a as =>
    by_cases ha : p a
    · simp [ha] at h
    · simp [List.dropWhile_cons, ha]

/-- Inversion of a successful `readComponent`. -/
lemma readComponent_eq_some {cs : List Char} {d r : List Char}
    (h : readComponent cs = some (d, r)) :
    d = cs.takeWhile (·.isDigit) ∧ r = cs.dropWhile (·.isDigit) ∧
    d ≠ [] ∧ ∀ c ∈ d, c.isDigit = true := by
  unfold readComponent at h
  cases hd : (cs.takeWhile (·.isDigit)).isEmpty with
  | true => simp [hd] at h
  | false =>
    simp only [hd, Bool.false_eq_true, if_false, Option.some.injEq,
      Prod.mk.injEq] at h
    obtain ⟨h1, h2⟩ := h
    refine ⟨h1.symm, h2.symm, ?_, ?_⟩
    · rw [← h1]
      intro hnil
      rw [hnil] at hd
      simp at hd
    · intro c hc
      rw [← h1] at hc
      exact List.mem_takeWhile_imp hc

/-- Reading a component consumes exactly a leading all-digit block. -/
lemma readComponent_append (d r : List Char) (hd : d ≠ [])
    (hdig : ∀ c ∈ d, c.isDigit = true)
    (hr : r.takeWhile (·.isDigit) = []) :
    readComponent (d ++ r) = some (d, r) := by
  have ht := takeWhile_append_of_all (·.isDigit) d r hdig
  have hdrp := dropWhile_append_of_all (·.isDigit) d r hdig
  have hdw := dropWhile_of_takeWhile_nil hr
  unfold readComponent
  rw [ht, hr, List.append_nil, hdrp, hdw]
  simp [hd]

/-- Inversion of a successful leading-version capture: the capture is
three nonempty digit blocks joined by dots, and the input is nonempty. -/
lemma extractLeadingVerCore_inv {cs l : List Char}
    (h : extractLeadingVerCore cs = some l) :
    cs ≠ [] ∧ ∃ d1 d2 d3, l = d1 ++ '.' :: d2 ++ '.' :: d3 ∧
      d1 ≠ [] ∧ d2 ≠ [] ∧ d3 ≠ [] ∧
      (∀ c ∈ d1, c.isDigit = true) ∧ (∀ c ∈ d2, c.isDigit = true) ∧
      (∀ c ∈ d3, c.isDigit = true) := by
  cases h1 : readComponent cs with
  | none => simp [extractLeadingVerCore, h1] at h
  | some dr =>
    obtain ⟨d1, r1⟩ := dr
    obtain ⟨hd1, hr1, hne1, hdig1⟩ := readComponent_eq_some h1
    have hcs : cs ≠ [] := by
      intro hnil
      rw [hnil] at hd1
      simp at hd1
      exact hne1 hd1
    refine ⟨hcs, ?_⟩
    cases r1 with
    | nil => simp [extractLeadingVerCore, h1] at h
    | cons c1 r2 =>
      by_cases hc1 : c1 = '.'
      · subst hc1
        cases h2 : readComponent r2 with
        | none => simp [extractLeadingVerCore, h1, h2] at h
        | some dr2 =>
          obtain ⟨d2, r3⟩ := dr2
          obtain ⟨hd2, hr3, hne2, hdig2⟩ := readComponent_eq_some h2
          cases r3 with
          | nil => simp [extractLeadingVerCore, h1, h2] at h
          | cons c2 r4 =>
            by_cases hc2 : c2 = '.'
            · subst hc2
              cases h3 : readComponent r4 with
              | none => simp [extractLeadingVerCore, h1, h2, h3] at h
              | some dr3 =>
                obtain ⟨d3, r5⟩ := dr3
                obtain ⟨hd3, -, hne3, hdig3⟩ := readComponent_eq_some h3
                simp only [extractLeadingVerCore, h1, h2, h3] at h
                simp at h
                refine ⟨d1, d2, d3, ?_, hne1, hne2, hne3,
                  hdig1, hdig2, hdig3⟩
                rw [← h]
                simp
            · simp [extractLeadingVerCore, h1, h2, hc2] at h
      · simp [extractLeadingVerCore, h1, hc1] at h

/-- The leading-version capture re-captures itself in full. -/
lemma extractLeadingVerCore_self {cs l : List Char}
    (h : extractLeadingVerCore cs = some l) :
    extractLeadingVerCore l = some l ∧ l ≠ [] := by
  obtain ⟨-, d1, d2, d3, hl, hne1, hne2, hne3, hdig1, hdig2, hdig3⟩ :=
    extractLeadingVerCore_inv h
  subst hl
  constructor
  · have hdot : (('.' : Char) :: (d2 ++ '.' :: d3)).takeWhile (·.isDigit) = [] := by
      simp
    have hdot3 : (('.' : Char) :: d3).takeWhile (·.isDigit) = [] := by
      simp
    have h1 := readComponent_append d1 ('.' :: (d2 ++ '.' :: d3)) hne1 hdig1 hdot
    have h2 := readComponent_append d2 ('.' :: d3) hne2 hdig2 hdot3
    have h3 : readComponent d3 = some (d3, []) := by
      have h0 := readComponent_append d3 [] hne3 hdig3 rfl
      rw [List.append_nil] at h0
      exact h0
    have hshape : d1 ++ '.' :: d2 ++ '.' :: d3 = d1 ++ ('.' :: (d2 ++ '.' :: d3)) := by
      simp
    rw [hshape]
    simp [extractLeadingVerCore, h1, h2, h3]
  · intro hnil
    cases d1 with
    | nil => exact hne1 rfl
    | cons a as => simp at hnil

/-- Claim C4: a version string made of a `MAJOR.MINOR.PATCH` numeric
run followed by a vendor suffix (one that defeats the strict parse, as
"-Docker-3.4.2" does) parses to the same version as the bare numeric
run: the fallback capture of the full string is exactly that run. -/
theorem claim_C4 (s p suffix : String)
    (hsplit : s.toList = p.toList ++ suffix.toList)
    (hstrict : pyParseVersion s = none)
    (hlead : extractLeadingVer s = some p) :
    parse_netbox_version s = parse_netbox_version p := by
  obtain ⟨l, hcore, hmk⟩ : ∃ l, extractLeadingVerCore s.toList = some l ∧
      String.mk l = p := by
    unfold extractLeadingVer at hlead
    cases hc : extractLeadingVerCore s.toList with
    | none => rw [hc] at hlead; simp at hlead
    | some l => rw [hc] at hlead; exact ⟨l, rfl, by simpa using hlead⟩
  obtain ⟨hself, hlne⟩ := extractLeadingVerCore_self hcore
  obtain ⟨hcsne, -⟩ := extractLeadingVerCore_inv hcore
  have hpdata : p.toList = l := by rw [← hmk]; rfl
  have hsne : s ≠ "" := by
    intro hs
    apply hcsne
    rw [hs]
    rfl
  have hpne : p ≠ "" := by
    intro hp
    apply hlne
    rw [← hpdata, hp]
    rfl
  have hleadp : extractLeadingVer p = some p := by
    unfold extractLeadingVer
    rw [hpdata, hself]
    simp [hmk]
  have hL : parse_netbox_version s =
      (match pyParseVersion p with
       | some v => v
       | none => sentinelVersion) := by
    simp [parse_netbox_version, hsne, hstrict, hlead]
  have hR : parse_netbox_version p =
      (match pyParseVersion p with
       | some v => v
       | none => sentinelVersion) := by
    cases hp : pyParseVersion p with
    | some v => simp [parse_netbox_version, hpne, hp]
    | none => simp [parse_netbox_version, hpne, hp, hleadp]
  rw [hL, hR]

/-- Witness for C4 on the spec's example: the Docker-suffixed version
parses like its numeric part. -/
theorem claim_C4_witness :
    pyParseVersion "4.5.1-Docker-3.4.2" = none ∧
    extractLeadingVer "4.5.1-Docker-3.4.2" = some "4.5.1" ∧
    parse_netbox_version "4.5.1-Docker-3.4.2" = parse_netbox_version "4.5.1" :=
  ⟨by decide, by decide,
    claim_C4 "4.5.1-Docker-3.4.2" "4.5.1" "-Docker-3.4.2"
      (by decide) (by decide) (by decide)⟩

/-! ## Claims about the catalog service loop -/

/-- The fields of a built plugin record that the runtime-status claims
read: its name, its registry version, and the exact condition under
which `upgrade_available` was set. -/
lemma buildPluginRecord_fields (current : PyVersion)
    (constraintsOf : String → Option PluginConstraints)
    (installed : List (String × String)) (activated : List String)
    (name : String) (info : PyPIInfo) (ce : CuratedEntry) :
    (buildPluginRecord current constraintsOf installed activated name info ce).name = name ∧
    (buildPluginRecord current constraintsOf installed activated name info ce).version = info.version ∧
    ((buildPluginRecord current constraintsOf installed activated name info ce).upgrade_available = true ↔
      ∃ iv, List.lookup name installed = some iv ∧ info.version ≠ some iv) := by
  cases hl : List.lookup name installed with
  | none => simp [buildPluginRecord, merge_plugin_info, hl]
  | some iv => simp [buildPluginRecord, merge_plugin_info, hl]

/-- Claim C3 (amended): in every record produced by `get_all_plugins`
or `get_plugin`, `upgrade_available` holds exactly when the package is
in the installed inventory and its registry version value — which may
be absent — differs from the installed version string; in particular a
record for a package that is not installed always carries
`upgrade_available = false`.  (The claim's stronger reading, requiring
a registry version to be present, fails: see the counterexample.) -/
theorem claim_C3 (current : PyVersion)
    (constraintsOf : String → Option PluginConstraints)
    (package_names : List String)
    (curatedPlugins : List (String × CuratedEntry))
    (pypiInfoOf : String → Option PyPIInfo)
    (installed : List (String × String)) (activated : List String)
    (include_uncurated : Bool) :
    (∀ p ∈ get_all_plugins current constraintsOf package_names curatedPlugins
        pypiInfoOf installed activated include_uncurated,
      (p.upgrade_available = true ↔
        ∃ iv, List.lookup p.name installed = some iv ∧ p.version ≠ some iv)) ∧
    (∀ name p, get_plugin current constraintsOf curatedPlugins pypiInfoOf
        installed activated name = some p →
      (p.upgrade_available = true ↔
        ∃ iv, List.lookup p.name installed = some iv ∧ p.version ≠ some iv)) := by
  constructor
  · intro p hp
    simp only [get_all_plugins, List.mem_filterMap] at hp
    obtain ⟨name, -, hf⟩ := hp
    by_cases hskip :
        (!include_uncurated && !((List.lookup name curatedPlugins).getD {}).isNonempty) = true
    · rw [if_pos hskip] at hf
      cases hf
    · rw [if_neg hskip] at hf
      cases hinfo : pypiInfoOf name with
      | none => rw [hinfo] at hf; cases hf
      | some info =>
        rw [hinfo] at hf
        simp only [Option.some.injEq] at hf
        obtain ⟨hname, hver, hup⟩ := buildPluginRecord_fields current
          constraintsOf installed activated name info
          ((List.lookup name curatedPlugins).getD {})
        rw [← hf, hname, hver]
        exact hup
  · intro name p hf
    simp only [get_plugin] at hf
    cases hinfo : pypiInfoOf name with
    | none => rw [hinfo] at hf; cases hf
    | some info =>
      rw [hinfo] at hf
      simp only [Option.some.injEq] at hf
      obtain ⟨hname, hver, hup⟩ := buildPluginRecord_fields current
        constraintsOf installed activated name info
        ((List.lookup name curatedPlugins).getD {})
      rw [← hf, hname, hver]
      exact hup

/-- Counterexample for C3 as stated: a produced record for an installed
package whose registry metadata carries no version (`version = none`)
still gets `upgrade_available = true`, though the claim — requiring
both an installed and a registry version — demands false there. -/
theorem claim_C3_counterexample :
    wBazRecord ∈ get_all_plugins sentinelVersion (fun _ => none)
      ["netbox-baz"] [] wPypiNoVer wInstalledBaz [] true ∧
    wBazRecord.version = none ∧
    List.lookup wBazRecord.name wInstalledBaz = some "1.0.0" ∧
    wBazRecord.upgrade_available = true := by decide

/-- Witness for the amended C3: the concrete catalog with "netbox-foo"
installed at 1.0.0 and a registry version 2.0.0 yields
`upgrade_available = true`. -/
theorem claim_C3_witness :
    wFooRecord ∈ get_all_plugins sentinelVersion (fun _ => none)
      ["netbox-foo"] [] wPypiOf wInstalled [] true ∧
    wFooRecord.upgrade_available = true := by
  have hmem : wFooRecord ∈ get_all_plugins sentinelVersion (fun _ => none)
      ["netbox-foo"] [] wPypiOf wInstalled [] true := by decide
  refine ⟨hmem, ?_⟩
  have h := (claim_C3 sentinelVersion (fun _ => none) ["netbox-foo"] []
    wPypiOf wInstalled [] true).1 wFooRecord hmem
  exact h.mpr ⟨"1.0.0", by decide, by decide⟩

/-- Claim C6: with `include_uncurated = false`, every record
`get_all_plugins` returns is for a name present in the curated
`plugins` mapping. -/
theorem claim_C6 (current : PyVersion)
    (constraintsOf : String → Option PluginConstraints)
    (package_names : List String)
    (curatedPlugins : List (String × CuratedEntry))
    (pypiInfoOf : String → Option PyPIInfo)
    (installed : List (String × String)) (activated : List String) :
    ∀ p ∈ get_all_plugins current constraintsOf package_names curatedPlugins
        pypiInfoOf installed activated false,
      ∃ e, List.lookup p.name curatedPlugins = some e := by
  intro p hp
  simp only [get_all_plugins, List.mem_filterMap] at hp
  obtain ⟨name, -, hf⟩ := hp
  cases hne : ((List.lookup name curatedPlugins).getD {}).isNonempty with
  | false =>
    rw [if_pos (by simp [hne])] at hf
    cases hf
  | true =>
    rw [if_neg (by simp [hne])] at hf
    cases hinfo : pypiInfoOf name with
    | none => rw [hinfo] at hf; cases hf
    | some info =>
      rw [hinfo] at hf
      simp only [Option.some.injEq] at hf
      obtain ⟨hname, -, -⟩ := buildPluginRecord_fields current
        constraintsOf installed activated name info
        ((List.lookup name curatedPlugins).getD {})
      cases hl : List.lookup name curatedPlugins with
      | none =>
        rw [hl] at hne
        simp [CuratedEntry.isNonempty] at hne
      | some e =>
        refine ⟨e, ?_⟩
        rw [← hf, hname]
        exact hl

/-- Witness for C6 on the concrete curated catalog. -/
theorem claim_C6_witness :
    wFooRecordCurated ∈ get_all_plugins sentinelVersion (fun _ => none)
      ["netbox-foo", "netbox-bar"] wCurated wPypiOf wInstalled [] false ∧
    ∃ e, List.lookup wFooRecordCurated.name wCurated = some e := by
  have hmem : wFooRecordCurated ∈ get_all_plugins sentinelVersion (fun _ => none)
      ["netbox-foo", "netbox-bar"] wCurated wPypiOf wInstalled [] false := by
    decide
  exact ⟨hmem, claim_C6 sentinelVersion (fun _ => none)
    ["netbox-foo", "netbox-bar"] wCurated wPypiOf wInstalled []
    wFooRecordCurated hmem⟩

/-! ## Claims about the registry client and the caches -/

/-- Claim C8: on a package-list cache miss, `get_all_netbox_packages`
returns exactly the fetched index names whose lowercase form starts
with one of the netbox name filters, and the empty list on a fetch
error, without raising. -/
theorem claim_C8 (c : Cache) (fetchIndex : Except Unit SimpleIndex)
    (hmiss : cacheGet c pypiPackagesKey = none) :
    (∀ idx, fetchIndex = .ok idx →
      (get_all_netbox_packages fetchIndex c).1 = idx.projects.filter isNetboxName ∧
      ∀ n, n ∈ (get_all_netbox_packages fetchIndex c).1 ↔
        (n ∈ idx.projects ∧ isNetboxName n = true)) ∧
    (∀ u, fetchIndex = .error u →
      (get_all_netbox_packages fetchIndex c).1 = []) := by
  constructor
  · rintro idx rfl
    constructor
    · simp [get_all_netbox_packages, hmiss, getAllNetboxPackagesFetch]
    · intro n
      simp [get_all_netbox_packages, hmiss, getAllNetboxPackagesFetch,
        List.mem_filter]
  · rintro u rfl
    simp [get_all_netbox_packages, hmiss, getAllNetboxPackagesFetch]

/-- Witness for C8 on a concrete index: mixed-case and non-netbox names
are filtered as specified. -/
theorem claim_C8_witness :
    cacheGet ([] : Cache) pypiPackagesKey = none ∧
    (get_all_netbox_packages
      (Except.ok { projects := ["netbox-foo", "other", "NetBox_bar"] })
      []).1 = ["netbox-foo", "NetBox_bar"] := by
  refine ⟨rfl, ?_⟩
  have h := ((claim_C8 []
    (Except.ok { projects := ["netbox-foo", "other", "NetBox_bar"] }) rfl).1
    { projects := ["netbox-foo", "other", "NetBox_bar"] } rfl).1
  rw [h]
  decide

/-- Deleting a key removes its entry. -/
lemma lookup_filter_self (k : String) (c : Cache) :
    List.lookup k (c.filter (fun kv => kv.1 != k)) = none := by
  induction c with
  | nil => rfl
  | cons a rest ih =>
    obtain ⟨ak, av⟩ := a
    by_cases hak : ak = k
    · subst hak
      simpa [List.filter_cons] using ih
    · have h1 : (ak != k) = true := by simp [hak]
      have h2 : (k == ak) = false := by
        simp [Ne.symm hak]
      simp [List.filter_cons, h1, List.lookup_cons, h2, ih]

/-- Deleting a key leaves other entries untouched. -/
lemma lookup_filter_other {k q : String} (h : q ≠ k) (c : Cache) :
    List.lookup q (c.filter (fun kv => kv.1 != k)) = List.lookup q c := by
  induction c with
  | nil => rfl
  | cons a rest ih =>
    obtain ⟨ak, av⟩ := a
    by_cases hak : ak = k
    · subst hak
      have h2 : (q == ak) = false := by simp [h]
      simp [List.filter_cons, List.lookup_cons, h2, ih]
    · have h1 : (ak != k) = true := by simp [hak]
      simp [List.filter_cons, h1, List.lookup_cons, ih]

/-- Claim C7 (amended): refreshing drops the package-list cache entry,
the installed-inventory cache entry and both in-process caches, leaves
every other cache entry (in particular per-package metadata entries) in
place, and makes the next package-list read take the fetch path and the
next curated-catalog read reload from source. -/
theorem claim_C7 (s : CatalogServiceState) :
    cacheGet (refresh_cache s).djCache pypiPackagesKey = none ∧
    cacheGet (refresh_cache s).djCache installedPackagesKey = none ∧
    (refresh_cache s).curatedData = none ∧
    (refresh_cache s).installedPackages = none ∧
    (∀ k, k ≠ pypiPackagesKey → k ≠ installedPackagesKey →
      cacheGet (refresh_cache s).djCache k = cacheGet s.djCache k) ∧
    (∀ fetchIndex, get_all_netbox_packages fetchIndex (refresh_cache s).djCache =
      getAllNetboxPackagesFetch fetchIndex (refresh_cache s).djCache) ∧
    (∀ loaded, (curated_data_property (refresh_cache s) loaded).1 = loaded) := by
  have h1 : cacheGet (refresh_cache s).djCache pypiPackagesKey = none := by
    simp only [refresh_cache, clear_cache, cacheDelete, cacheGet]
    rw [lookup_filter_other (by decide), lookup_filter_self]
  refine ⟨h1, ?_, rfl, rfl, ?_, ?_, fun loaded => rfl⟩
  · simp only [refresh_cache, clear_cache, cacheDelete, cacheGet]
    rw [lookup_filter_self]
  · intro k hk1 hk2
    simp only [refresh_cache, clear_cache, cacheDelete, cacheGet]
    rw [lookup_filter_other hk2, lookup_filter_other hk1]
  · intro fetchIndex
    simp [get_all_netbox_packages, h1]

/-- Witness for the amended C7: on the concrete state the per-package
entry survives the refresh while the package-list key is gone. -/
theorem claim_C7_witness :
    cacheGet (refresh_cache exampleState).djCache (packageCacheKey "netbox-foo") =
      cacheGet exampleState.djCache (packageCacheKey "netbox-foo") ∧
    cacheGet (refresh_cache exampleState).djCache pypiPackagesKey = none :=
  ⟨(claim_C7 exampleState).2.2.2.2.1 (packageCacheKey "netbox-foo")
      (by decide) (by decide),
    (claim_C7 exampleState).1⟩

/-- Counterexample for C7 as stated: after a refresh the per-package
metadata entry is still cached, and the next `get_package_info` returns
the stale cached value instead of what a re-fetch would produce. -/
theorem claim_C7_counterexample :
    cacheGet (refresh_cache exampleState).djCache (packageCacheKey "netbox-foo") =
      some (.pkgInfo cachedFooInfo) ∧
    (get_package_info "netbox-foo" (.ok freshFooRaw)
      (refresh_cache exampleState).djCache).1 = some cachedFooInfo ∧
    (getPackageInfoFetch "netbox-foo" (.ok freshFooRaw)
      (refresh_cache exampleState).djCache).1 ≠ some cachedFooInfo := by
  exact ⟨by decide, by decide, by decide⟩

end NetboxCatalog
